import Mathlib

/-!
Formal model of the article-acquisition pipeline in `backend/news_fetcher3.py`
(repository ziadbensaada/store).

Conventions of the shallow embedding:
* Python strings are modelled as `List Char` (`Str`); the helper `str` turns a
  Lean string literal into one.  All character-level operations (`lower`,
  `strip`, `split`, substring tests) are spelled out on `List Char` so that
  every definition evaluates by kernel reduction.
* Case mapping and whitespace classification are modelled for the ASCII
  fragment, which covers every string the code manipulates in the claims.
* External libraries are modelled as follows: `hashlib.md5` is implemented
  bit-for-bit (and validated against known digests below); `urllib.parse.urlparse`
  is reimplemented for the scheme/netloc/path/query split it performs on
  ordinary URLs, with `urlparseE` additionally modelling the
  `ValueError("Invalid IPv6 URL")` it raises on an unmatched-bracket netloc;
  `urllib.parse.unquote` and `urllib.parse.urljoin` are abstract
  parameters (`unquote`, `join`) since only their call/return behaviour matters;
  network fetches (`requests`, `feedparser`) are abstract inputs.
* Machine integers do not occur; Python integers are `Nat` with explicit
  `% 2^32` where the md5 arithmetic wraps.
* A Python function that can raise and whose exceptions are swallowed into a
  `None`/default result is modelled with `Option`/`Except` as stated at each
  definition.
-/

set_option maxRecDepth 100000

namespace Store

abbrev Str := List Char

def str (s : String) : Str := s.data

/-- Model of Python `str.lower` for ASCII characters. -/
def lowerChar (c : Char) : Char :=
  if 65 ≤ c.toNat ∧ c.toNat ≤ 90 then Char.ofNat (c.toNat + 32) else c

def lowerStr (s : Str) : Str := s.map lowerChar

/-- Model of Python `str.isspace` members used by `str.strip()`/`str.split()`
(ASCII whitespace). -/
def isSpaceChar (c : Char) : Bool :=
  c = ' ' || c = '\t' || c = '\n' || c = '\x0d' || c = '\x0b' || c = '\x0c'

/-- Strip the characters satisfying `p` from both ends (Python `str.strip`). -/
def stripWhile (p : Char → Bool) (s : Str) : Str :=
  ((s.dropWhile p).reverse.dropWhile p).reverse

/-- Python `str.strip()` (whitespace). -/
def pyStrip (s : Str) : Str := stripWhile isSpaceChar s

/-- Python `str.strip('"\'')` as used by `create_name_pattern`. -/
def stripQuotes (s : Str) : Str :=
  stripWhile (fun c => c = '"' || c = '\x27') s

/-- Python `s.startswith(p)`. -/
def startsWith : Str → Str → Bool
  | _, [] => true
  | [], _ :: _ => false
  | c :: s, d :: p => c = d && startsWith s p

/-- Python `s.endswith(p)`. -/
def endsWith (s p : Str) : Bool := startsWith s.reverse p.reverse

/-- Python `p in s` (substring containment). -/
def inStr (p : Str) : Str → Bool
  | [] => startsWith [] p
  | c :: rest => startsWith (c :: rest) p || inStr p rest

/-- Python `str.split()` (split on whitespace runs, dropping empty pieces). -/
def splitWsAux : Str → Str → List Str
  | [], cur => if cur = [] then [] else [cur.reverse]
  | c :: rest, cur =>
    if isSpaceChar c then
      if cur = [] then splitWsAux rest [] else cur.reverse :: splitWsAux rest []
    else splitWsAux rest (c :: cur)

def splitWs (s : Str) : List Str := splitWsAux s []

/-- Python `sep.join(parts)`. -/
def joinSep (sep : Str) : List Str → Str
  | [] => []
  | [x] => x
  | x :: xs => x ++ sep ++ joinSep sep xs

/-- Model of `clean_text` (news_fetcher3.py:952): collapse whitespace, empty on
falsy input. -/
def clean_text (t : Str) : Str :=
  if t = [] then [] else joinSep [' '] (splitWs t)

/-- Everything before the first occurrence of `c` (Python `s.split(c)[0]`). -/
def takeUntilChar (c : Char) (s : Str) : Str := s.takeWhile (· ≠ c)

def dropThrough (c : Char) (s : Str) : Str :=
  (s.dropWhile (· ≠ c)).drop 1

/-- Parts of a parsed URL as returned by `urllib.parse.urlparse`. -/
structure UrlParts where
  scheme : Str
  netloc : Str
  path : Str
  query : Str
deriving DecidableEq

def isSchemeChar (c : Char) : Bool :=
  c.isAlphanum || c = '+' || c = '-' || c = '.'

/-- Model of `urllib.parse.urlparse` for the scheme/netloc/path/query split it
performs on ordinary URLs (parameter and fragment quirks are not exercised by
the code under study). -/
def urlparse (u : Str) : UrlParts :=
  let u := takeUntilChar '#' u
  let hasScheme :=
    match u.takeWhile (· ≠ ':') with
    | [] => false
    | c :: cs => c.isAlpha && cs.all isSchemeChar && (u.dropWhile (· ≠ ':') ≠ [])
  let scheme := if hasScheme then lowerStr (u.takeWhile (· ≠ ':')) else []
  let rest := if hasScheme then dropThrough ':' u else u
  let hasNetloc := startsWith rest (str "//")
  let afterSlashes := rest.drop 2
  let netloc :=
    if hasNetloc then afterSlashes.takeWhile (fun c => c ≠ '/' && c ≠ '?') else []
  let rest2 :=
    if hasNetloc then afterSlashes.dropWhile (fun c => c ≠ '/' && c ≠ '?') else rest
  let path := takeUntilChar '?' rest2
  let query := dropThrough '?' rest2
  ⟨scheme, netloc, path, query⟩

/-- Faithful model of `urllib.parse.urlparse` including its raising behaviour:
CPython `urlsplit` raises `ValueError("Invalid IPv6 URL")` when the netloc
contains an unmatched bracket; `.error` is that exception, and on the
non-raising domain the value is `urlparse`. -/
def urlparseE (u : Str) : Except Unit UrlParts :=
  let p := urlparse u
  if (inStr ['['] p.netloc && !(inStr [']'] p.netloc)) ||
     (inStr [']'] p.netloc && !(inStr ['['] p.netloc)) then .error ()
  else .ok p

/-- UTF-8 encoding of one character (model of Python `str.encode('utf-8')`). -/
def utf8Char (c : Char) : List Nat :=
  let n := c.toNat
  if n < 0x80 then [n]
  else if n < 0x800 then [0xC0 ||| (n >>> 6), 0x80 ||| (n &&& 0x3F)]
  else if n < 0x10000 then
    [0xE0 ||| (n >>> 12), 0x80 ||| ((n >>> 6) &&& 0x3F), 0x80 ||| (n &&& 0x3F)]
  else
    [0xF0 ||| (n >>> 18), 0x80 ||| ((n >>> 12) &&& 0x3F),
     0x80 ||| ((n >>> 6) &&& 0x3F), 0x80 ||| (n &&& 0x3F)]

def utf8Encode (s : Str) : List Nat := (s.map utf8Char).flatten

/-! Implementation of MD5 (RFC 1321), the hash behind `hashlib.md5(...).hexdigest()`
used for cache keys.  Words are `Nat` reduced mod `2^32`. -/

def m32 : Nat := 4294967296

def mask32 : Nat := 4294967295

def rotl32 (x s : Nat) : Nat := ((x <<< s) ||| (x >>> (32 - s))) % m32

def md5K : List Nat := [
  3614090360, 3905402710, 606105819, 3250441966, 4118548399, 1200080426, 2821735955, 4249261313,
  1770035416, 2336552879, 4294925233, 2304563134, 1804603682, 4254626195, 2792965006, 1236535329,
  4129170786, 3225465664, 643717713, 3921069994, 3593408605, 38016083, 3634488961, 3889429448,
  568446438, 3275163606, 4107603335, 1163531501, 2850285829, 4243563512, 1735328473, 2368359562,
  4294588738, 2272392833, 1839030562, 4259657740, 2763975236, 1272893353, 4139469664, 3200236656,
  681279174, 3936430074, 3572445317, 76029189, 3654602809, 3873151461, 530742520, 3299628645,
  4096336452, 1126891415, 2878612391, 4237533241, 1700485571, 2399980690, 4293915773, 2240044497,
  1873313359, 4264355552, 2734768916, 1309151649, 4149444226, 3174756917, 718787259, 3951481745]

def md5S : List Nat := [
  7, 12, 17, 22, 7, 12, 17, 22, 7, 12, 17, 22, 7, 12, 17, 22,
  5, 9, 14, 20, 5, 9, 14, 20, 5, 9, 14, 20, 5, 9, 14, 20,
  4, 11, 16, 23, 4, 11, 16, 23, 4, 11, 16, 23, 4, 11, 16, 23,
  6, 10, 15, 21, 6, 10, 15, 21, 6, 10, 15, 21, 6, 10, 15, 21]

/-- Little-endian byte expansion. -/
def leBytes (count x : Nat) : List Nat :=
  (List.range count).map (fun i => (x >>> (8 * i)) % 256)

/-- MD5 padding: `0x80`, zeros to 56 mod 64, then the 64-bit little-endian bit
length. -/
def md5Pad (msg : List Nat) : List Nat :=
  let len := msg.length
  let zeros := (64 + 55 - len % 64) % 64
  msg ++ [0x80] ++ List.replicate zeros 0 ++ leBytes 8 ((len * 8) % (2 ^ 64))

def chunksAux : Nat → List Nat → List (List Nat)
  | 0, _ => []
  | _, [] => []
  | fuel + 1, l => l.take 64 :: chunksAux fuel (l.drop 64)

def toChunks64 (l : List Nat) : List (List Nat) := chunksAux l.length l

/-- The sixteen 32-bit little-endian words of one 64-byte chunk. -/
def chunkWords (c : List Nat) : List Nat :=
  (List.range 16).map (fun i =>
    c.getD (4 * i) 0 + (c.getD (4 * i + 1) 0 <<< 8) +
    (c.getD (4 * i + 2) 0 <<< 16) + (c.getD (4 * i + 3) 0 <<< 24))

def md5Round (M : List Nat) (st : Nat × Nat × Nat × Nat) (i : Nat) :
    Nat × Nat × Nat × Nat :=
  let a := st.1
  let b := st.2.1
  let c := st.2.2.1
  let d := st.2.2.2
  let fg : Nat × Nat :=
    if i < 16 then ((b &&& c) ||| ((b ^^^ mask32) &&& d), i)
    else if i < 32 then ((d &&& b) ||| ((d ^^^ mask32) &&& c), (5 * i + 1) % 16)
    else if i < 48 then (b ^^^ c ^^^ d, (3 * i + 5) % 16)
    else (c ^^^ (b ||| (d ^^^ mask32)), (7 * i) % 16)
  let f := (fg.1 + a + md5K.getD i 0 + M.getD fg.2 0) % m32
  (d, (b + rotl32 f (md5S.getD i 0)) % m32, b, c)

def md5Chunk (st : Nat × Nat × Nat × Nat) (chunk : List Nat) :
    Nat × Nat × Nat × Nat :=
  let M := chunkWords chunk
  let r := (List.range 64).foldl (md5Round M) st
  ((st.1 + r.1) % m32, (st.2.1 + r.2.1) % m32,
   (st.2.2.1 + r.2.2.1) % m32, (st.2.2.2 + r.2.2.2) % m32)

def md5Bytes (msg : List Nat) : List Nat :=
  let st := (toChunks64 (md5Pad msg)).foldl md5Chunk
    (0x67452301, 0xefcdab89, 0x98badcfe, 0x10325476)
  leBytes 4 st.1 ++ leBytes 4 st.2.1 ++ leBytes 4 st.2.2.1 ++ leBytes 4 st.2.2.2

def hexChar (n : Nat) : Char :=
  if n < 10 then Char.ofNat (48 + n) else Char.ofNat (87 + n)

def byteHex (b : Nat) : Str := [hexChar (b / 16), hexChar (b % 16)]

/-- Model of `hashlib.md5(bytes).hexdigest()`. -/
def md5Hex (msg : List Nat) : Str := (md5Bytes msg).map byteHex |>.flatten

/-- Model of `get_cache_key` (news_fetcher3.py:864):
`hashlib.md5(f"{query.lower()}:{feed_url}".encode('utf-8')).hexdigest()`. -/
def get_cache_key (query feed_url : Str) : Str :=
  md5Hex (utf8Encode (lowerStr query ++ [':'] ++ feed_url))

/-- Cache key computed inline by `search_rss_feeds` (news_fetcher3.py:1773):
`hashlib.md5(f"rss_search_{query}".encode()).hexdigest()` — note that the
query is NOT lowercased here. -/
def rss_cache_key (query : Str) : Str :=
  md5Hex (utf8Encode (str "rss_search_" ++ query))

/-! Entity matcher (`create_name_pattern`, news_fetcher3.py:1702).  The regex it
compiles is `(?i)(?:(?<!\w)v1(?!\w)|...)` where each `vi` is a `re.escape`d
literal variant; its `re.search` semantics is therefore: some variant occurs in
the text, case-insensitively, with no word character directly before or after
the occurrence.  That semantics is spelled out below (`pattern_search`); word
characters follow Python `\w` on the ASCII fragment. -/

def isWordChar (c : Char) : Bool := c.isAlphanum || c = '_'

/-- Occurrence of `variant` at position `i` of `text` with the `(?<!\w)`/`(?!\w)`
boundary checks of the compiled pattern. -/
def matchesAt (text variant : Str) (i : Nat) : Bool :=
  startsWith (text.drop i) variant &&
  (decide (i = 0) || !isWordChar ((text.getD (i - 1) ' '))) &&
  (match text.get? (i + variant.length) with
   | none => true
   | some c => !isWordChar c)

/-- Model of `compiled_pattern.search(text) is not None` for the alternation of
literal `variants` (already lowercase); `(?i)` is realised by lowercasing the
text. -/
def pattern_search (variants : List Str) (text : Str) : Bool :=
  let t := lowerStr text
  variants.any (fun v => (List.range (t.length + 1)).any (fun i => matchesAt t v i))

/-- Model of `create_name_pattern` (news_fetcher3.py:1702).  Returns the list of
literal variants of the compiled alternation (`none` for empty input, mirroring
the `return None, []` paths) together with `search_terms`.  `re.compile` cannot
fail on escaped literals, so the `re.error` branch is dead. -/
def create_name_pattern (name : Str) : Option (List Str) × List Str :=
  let name := pyStrip (stripQuotes name)
  if name = [] then (none, [])
  else
    let exact_phrase := lowerStr name
    let name_parts := splitWs exact_phrase
    if h : name_parts = [] then (none, [])
    else
      let full_name := joinSep [' '] name_parts
      let first := name_parts.head (by exact h)
      let last := name_parts.getLast (by exact h)
      let variants :=
        if name_parts.length > 1 then
          [full_name,
           joinSep [' '] name_parts.reverse,
           first ++ [' '] ++ [last.headD ' '] ++ ['.'],
           [first.headD ' '] ++ ['.', ' '] ++ last]
        else [full_name]
      let search_terms :=
        if name_parts.length > 1 then
          [full_name,
           joinSep [' '] name_parts.reverse,
           first ++ [' '] ++ [last.headD ' '] ++ ['.'],
           [first.headD ' '] ++ ['.', ' '] ++ last]
        else [full_name]
      (some variants, search_terms)

/-! Image validator (`validate_image_url_robust`, news_fetcher3.py:48). -/

def skip_patterns : List Str :=
  [str "favicon", str "logo-small", str "icon-", str "sprite", str "blank.",
   str "spacer.", str "pixel.", str "1x1.", str "tracking", str "beacon",
   str "counter", str "stats", str "ads/", str "advertisement", str "google",
   str "facebook.com", str "twitter.com", str "share-", str "social-",
   str "print-", str "email-"]

def image_extensions : List Str :=
  [str ".jpg", str ".jpeg", str ".png", str ".gif", str ".webp", str ".bmp",
   str ".svg"]

def image_indicators : List Str :=
  [str "/image", str "/img", str "/photo", str "/pic", str "/media",
   str "/upload", str "image=", str "img=", str "photo=", str "src=",
   str "thumbnail", str "thumb", str "gallery", str "cdn.", str "static.",
   str "assets/", str "content/", str "wp-content", str "images.", str "pics.",
   str "media."]

def resize_params : List Str :=
  [str "w=", str "h=", str "width=", str "height=", str "size=", str "format="]

/-- Model of `validate_image_url_robust` (news_fetcher3.py:48).  The
`isinstance(url, str)` test is vacuous in the typed model. -/
def validate_image_url_robust (url : Str) : Bool :=
  if url = [] then false
  else
    let url := pyStrip url
    if url = [] || url.length < 5 then false
    else if startsWith (lowerStr url) (str "data:image/") then true
    else if !(startsWith url (str "http://") || startsWith url (str "https://") ||
              startsWith url (str "//") || startsWith url (str "/") ||
              startsWith url (str "./")) then false
    else
      let url_lower := lowerStr url
      if skip_patterns.any (fun p => inStr p url_lower) then false
      else
        let path := lowerStr (urlparse url).path
        if image_extensions.any (fun e => endsWith path e) then true
        else if image_indicators.any (fun p => inStr p url_lower) then true
        else if inStr ['?'] url && resize_params.any (fun p => inStr p url_lower) then
          true
        else false

/-! URL absolutizers.  `urllib.parse.urljoin` is passed in as `join`, returning
`none` exactly when the library call would raise; the surrounding `try/except`
of each function is translated at the `join` call. -/

/-- Model of `make_absolute_url` (news_fetcher3.py:1255).  Only the `urljoin`
call sits inside the `try`: on a join failure the `except` branch returns the
(stripped) input string, not `None`; but the `urlparse(base_url)` calls of the
protocol-relative and root-relative branches (lines 1275 and 1282) are bare,
so their `ValueError` on a bracket-malformed base PROPAGATES to the caller —
rendered as the `.error` outcome. -/
def make_absolute_url (join : Str → Str → Option Str) (image_url base_url : Str) :
    Except Unit (Option Str) :=
  if image_url = [] then .ok none
  else
    let iu := pyStrip image_url
    if startsWith iu (str "http://") || startsWith iu (str "https://") then
      .ok (some iu)
    else if startsWith iu (str "//") then
      match urlparseE base_url with
      | .ok p => .ok (some (p.scheme ++ [':'] ++ iu))
      | .error e => .error e
    else if startsWith iu (str "/") then
      match urlparseE base_url with
      | .ok p => .ok (some (p.scheme ++ str "://" ++ p.netloc ++ iu))
      | .error e => .error e
    else
      match join base_url iu with
      | some r => .ok (some r)
      | none => .ok (some iu)

/-- Model of `make_absolute_url_robust` (news_fetcher3.py:104).  Same skeleton,
plus the `data:` passthrough and the `base_url` falsy check; here the WHOLE
body is inside the `try`, so a `urlparse` failure is also caught and the
blanket `except` returns the stripped input. -/
def make_absolute_url_robust (join : Str → Str → Option Str)
    (image_url base_url : Str) : Option Str :=
  if image_url = [] || base_url = [] then none
  else
    let iu := pyStrip image_url
    if startsWith iu (str "http://") || startsWith iu (str "https://") then some iu
    else if startsWith iu (str "data:") then some iu
    else if startsWith iu (str "//") then
      match urlparseE base_url with
      | .ok p => some (p.scheme ++ [':'] ++ iu)
      | .error _ => some iu
    else if startsWith iu (str "/") then
      match urlparseE base_url with
      | .ok p => some (p.scheme ++ str "://" ++ p.netloc ++ iu)
      | .error _ => some iu
    else
      match join base_url iu with
      | some r => some r
      | none => some iu

/-! Result cache (news_fetcher3.py:29, 869, 886).  The cache directory is a map
from key to a file holding a JSON payload and carrying an mtime; JSON
round-trips the article lists stored here, so the payload is kept typed.
Times are seconds; `CACHE_TTL = timedelta(hours=24)`.  `datetime.now() - mtime
> CACHE_TTL` on a file written in the future is negative in Python and `0` in
truncated `Nat` subtraction — both fail the `>` test, so `Nat` is faithful. -/

/-- Normalized article record: the `entry_data`/article dict of
news_fetcher3.py.  `author` is `none` for records converted from the NewsAPI
path, which omits the key. -/
structure Article where
  title : Str
  url : Str
  publish_date : Str
  content : Str
  source : Str
  author : Option Str
  image_url : Option Str
deriving DecidableEq

structure CacheFile where
  payload : List Article
  mtime : Nat
deriving DecidableEq

/-- The cache directory: cache key to file (if present). -/
def CacheFS : Type := Str → Option CacheFile

def CACHE_TTL : Nat := 24 * 60 * 60

/-- Model of `load_from_cache` (news_fetcher3.py:869). -/
def load_from_cache (fs : CacheFS) (key : Str) (now : Nat) : Option (List Article) :=
  match fs key with
  | none => none
  | some f => if now - f.mtime > CACHE_TTL then none else some f.payload

/-- Model of `save_to_cache` (news_fetcher3.py:886); the write stamps the file
with the current time. -/
def save_to_cache (fs : CacheFS) (key : Str) (data : List Article) (now : Nat) :
    CacheFS :=
  fun k => if k = key then some ⟨data, now⟩ else fs k

/-! Feed aggregator (`search_rss_feeds`, news_fetcher3.py:1766).  Network and
database collaborators are abstract: the active feed list (MongoDB) is an
input, `feedparser.parse` results are the `Feed`/`Entry` values, and the three
network helpers live in `Env`.  MongoDB health writes are I/O with no bearing
on the returned data and are not represented. -/

/-- One parsed feed entry.  `pubParsed` is the `%Y-%m-%d` rendering of
`entry.published_parsed` when present and convertible (`none` covers both the
missing attribute and the swallowed conversion error); `altDate` is the first
present of the `updated`/`published`/`pubDate`/`dc:date` fallback fields. -/
structure Entry where
  link : Option Str
  title : Option Str
  description : Option Str
  contentVals : List Str
  pubParsed : Option Str
  altDate : Option Str
  author : Option Str

/-- One `feedparser.parse` result; `bozo` models `hasattr(feed, 'bozo_exception')`. -/
structure Feed where
  url : Str
  bozo : Bool
  ftitle : Option Str
  entries : List Entry

/-- The fields of an `extract_article_content` result that `search_rss_feeds`
reads. -/
structure Extracted where
  content : Str
  image_url : Option Str
  publish_date : Str

/-- Abstract I/O collaborators: `urllib.parse.unquote` (used by `clean_url`),
the full-page extraction (network fetch + `extract_article_content`), and
`extract_image_from_rss_robust` (which probes candidate images over the
network). -/
structure Env where
  unquote : Str → Str
  extract : Str → Option Extracted
  rssImage : Entry → Option Str

/-- Model of `clean_url` (news_fetcher3.py:958): `urllib.parse.unquote`, with
the blanket `except` folded into totality of `unquote`. -/
def clean_url (env : Env) (url : Str) : Str := env.unquote url

/-- Python truthiness of the optional string fields of `entry_data`. -/
def truthyOpt : Option Str → Bool
  | some s => s ≠ []
  | none => false

/-- Construction of `entry_data` for one matched entry
(news_fetcher3.py:1834-1897), given the already-cleaned entry URL.  The dict
updates are rendered as successive let-bound field values (the `url` key is set
once and never reassigned). -/
def buildEntryData (env : Env) (feed : Feed) (entry : Entry) (url : Str) : Article :=
  let title0 := clean_text (entry.title.getD [])
  let content0 := clean_text (entry.description.getD [])
  let source0 := clean_text (match feed.ftitle with
    | some t => t
    | none => (urlparse feed.url).netloc)
  let author0 := clean_text (entry.author.getD (str "Unknown"))
  let pd0 : Str :=
    match entry.pubParsed with
    | some d => d
    | none =>
      match entry.altDate with
      | some s => clean_text s
      | none => []
  let image0 : Option Str := (env.rssImage entry).map (clean_url env)
  let enr : Str × Option Str × Str :=
    if content0.length < 200 then
      match env.extract url with
      | some a =>
        (if a.content ≠ [] then clean_text a.content else content0,
         if truthyOpt a.image_url ∧ ¬ truthyOpt image0 then
           some (clean_url env (a.image_url.getD []))
         else image0,
         if a.publish_date ≠ [] ∧ pd0 = [] then a.publish_date else pd0)
      | none => (content0, image0, pd0)
    else (content0, image0, pd0)
  let content2 :=
    if enr.1 = [] then
      clean_text (entry.description.getD
        (str "No content available. Please visit the source: " ++ url))
    else enr.1
  let image2 :=
    if truthyOpt enr.2.1 then
      let img := clean_url env (enr.2.1.getD [])
      let img :=
        if startsWith img (str "//") then str "https:" ++ img
        else if startsWith img (str "/") then
          (urlparse url).scheme ++ str "://" ++ (urlparse url).netloc ++ img
        else img
      some img
    else enr.2.1
  { title := title0, url := url, publish_date := enr.2.2, content := content2,
    source := source0, author := some author0, image_url := image2 }

/-- The per-entry loop of `search_rss_feeds` over (up to 20) entries of one
feed, threading the article list and the `processed_urls` set.  Both `break`
statements on `len(articles) >= max_articles` are the length guard. -/
def processEntries (env : Env) (pat : List Str) (feed : Feed) (maxA : Nat) :
    List Entry → List Article → List Str → List Article × List Str
  | [], arts, proc => (arts, proc)
  | e :: rest, arts, proc =>
    if maxA ≤ arts.length then (arts, proc)
    else
      let url := clean_url env (e.link.getD [])
      if url = [] ∨ url ∈ proc then processEntries env pat feed maxA rest arts proc
      else
        let t := lowerStr (e.title.getD [])
        let d := lowerStr (e.description.getD [])
        let c := joinSep [' '] (e.contentVals.map lowerStr)
        let search_text := lowerStr (t ++ [' '] ++ d ++ [' '] ++ c)
        if ¬ pattern_search pat search_text then
          processEntries env pat feed maxA rest arts proc
        else
          processEntries env pat feed maxA rest
            (arts ++ [buildEntryData env feed e url]) (url :: proc)

/-- The per-feed loop of `search_rss_feeds`; a bozo feed is logged and
skipped, and `processed_urls` persists across feeds. -/
def processFeeds (env : Env) (pat : List Str) (maxA : Nat) :
    List Feed → List Article → List Str → List Article
  | [], arts, _ => arts
  | f :: rest, arts, proc =>
    if maxA ≤ arts.length then arts
    else if f.bozo then processFeeds env pat maxA rest arts proc
    else
      let r := processEntries env pat f maxA (f.entries.take 20) arts proc
      processFeeds env pat maxA rest r.1 r.2

/-- Outcome of one `search_rss_feeds` call: the returned list, the cache
directory afterwards, and whether the feeds were polled (i.e. the cached-result
early return was not taken). -/
structure SearchOut where
  articles : List Article
  cache : CacheFS
  polled : Bool

/-- The truthiness test of the walrus
`if cached_results := load_from_cache(cache_key):` — the cached branch is taken
only for a present, unexpired AND non-empty payload. -/
def rssHit (cache : CacheFS) (key : Str) (now : Nat) : Option (List Article) :=
  match load_from_cache cache key now with
  | some l => if l = [] then none else some l
  | none => none

/-- Model of `search_rss_feeds` (news_fetcher3.py:1766-1929).  The final write
is guarded by `if articles:`. -/
def search_rss_feeds (env : Env) (feeds : List Feed) (cache : CacheFS)
    (query : Str) (maxA : Nat) (now : Nat) : SearchOut :=
  match (create_name_pattern query).1 with
  | none => ⟨[], cache, false⟩
  | some pat =>
    match rssHit cache (rss_cache_key query) now with
    | some l => ⟨l.take maxA, cache, false⟩
    | none =>
      let arts := processFeeds env pat maxA feeds [] []
      ⟨arts,
       if arts ≠ [] then save_to_cache cache (rss_cache_key query) arts now
       else cache,
       true⟩

/-! Date handling of `get_news_about` (news_fetcher3.py:1935-2030).
`datetime.strptime(s, '%Y-%m-%d')` is modelled after CPython `_strptime`:
`%Y` is exactly four digits, `%m` matches `1[0-2]|0[1-9]|[1-9]`, `%d` matches
`3[01]|[12]\d|0[1-9]|[1-9]`, the whole string must be consumed, and the
`datetime` constructor then enforces `year >= 1` and calendar-valid days.
Dates compare lexicographically as (year, month, day); `datetime.min` is
`(1, 1, 1)`. -/

abbrev Date := Nat × Nat × Nat

def digitVal (c : Char) : Nat := c.toNat - 48

def take4Digits : Str → Option (Nat × Str)
  | a :: b :: c :: d :: rest =>
    if a.isDigit ∧ b.isDigit ∧ c.isDigit ∧ d.isDigit then
      some (digitVal a * 1000 + digitVal b * 100 + digitVal c * 10 + digitVal d, rest)
    else none
  | _ => none

/-- CPython regex `1[0-2]|0[1-9]|[1-9]` for `%m` (longest-first alternation). -/
def parseMonth : Str → Option (Nat × Str)
  | '1' :: c :: rest =>
    if c = '0' ∨ c = '1' ∨ c = '2' then some (10 + digitVal c, rest)
    else some (1, c :: rest)
  | '0' :: c :: rest =>
    if '1' ≤ c ∧ c ≤ '9' then some (digitVal c, rest) else none
  | c :: rest =>
    if '1' ≤ c ∧ c ≤ '9' then some (digitVal c, rest) else none
  | [] => none

/-- CPython regex `3[01]|[12]\d|0[1-9]|[1-9]` for `%d`. -/
def parseDay : Str → Option (Nat × Str)
  | '3' :: c :: rest =>
    if c = '0' ∨ c = '1' then some (30 + digitVal c, rest) else some (3, c :: rest)
  | '0' :: c :: rest =>
    if '1' ≤ c ∧ c ≤ '9' then some (digitVal c, rest) else none
  | c :: d :: rest =>
    if ('1' = c ∨ '2' = c) ∧ d.isDigit then some (digitVal c * 10 + digitVal d, rest)
    else if '1' ≤ c ∧ c ≤ '9' then some (digitVal c, d :: rest)
    else none
  | [c] => if '1' ≤ c ∧ c ≤ '9' then some (digitVal c, []) else none
  | [] => none

def leapYear (y : Nat) : Bool := y % 4 = 0 && (y % 100 ≠ 0 || y % 400 = 0)

def daysInMonth (y m : Nat) : Nat :=
  if m = 2 then (if leapYear y then 29 else 28)
  else if m = 4 ∨ m = 6 ∨ m = 9 ∨ m = 11 then 30
  else 31

/-- Model of `datetime.strptime(s, '%Y-%m-%d')`, `none` for the raised
`ValueError`. -/
def parse_ymd (s : Str) : Option Date :=
  match take4Digits s with
  | some (y, '-' :: r1) =>
    (match parseMonth r1 with
     | some (m, '-' :: r2) =>
       (match parseDay r2 with
        | some (d, []) =>
          if 1 ≤ y ∧ d ≤ daysInMonth y m then some (y, m, d) else none
        | _ => none)
     | _ => none)
  | _ => none

/-- Python `s.split('T')[0]`. -/
def splitT (s : Str) : Str := takeUntilChar 'T' s

/-- The `article_date` computed inside the dedup/filter loop: `None` unless the
truthy `publish_date` parses (the `except (ValueError, AttributeError)` arm). -/
def parse_article_date (pd : Str) : Option Date :=
  if pd = [] then none else parse_ymd (splitT pd)

def dateLeB (a b : Date) : Bool :=
  decide (a.1 < b.1 ∨ (a.1 = b.1 ∧ (a.2.1 < b.2.1 ∨ (a.2.1 = b.2.1 ∧ a.2.2 ≤ b.2.2))))

def dateLtB (a b : Date) : Bool := dateLeB a b && !(dateLeB b a)

/-- One of the two range `if` blocks: vacuously true when the bound is falsy,
otherwise `strptime` the bound (`.error` = the raised, propagating
`ValueError`) and test the comparison `k`. -/
def rangeCheck (bound : Option Str) (k : Date → Bool) : Except Unit Bool :=
  match bound with
  | some s =>
    if s ≠ [] then
      match parse_ymd s with
      | some v => .ok (k v)
      | none => .error ()
    else .ok true
  | none => .ok true

/-- The two range `if` blocks of the dedup loop for one article whose
`article_date` is `ad`: `include_article` starts true, is falsified when
`article_date < start` and when `article_date > end`, and the bounds are only
parsed (possibly raising) when the article date is present. -/
def passesRange (sd ed : Option Str) (ad : Option Date) : Except Unit Bool :=
  match ad with
  | none => .ok true
  | some d =>
    match rangeCheck sd (fun v => !dateLtB d v) with
    | .error e => .error e
    | .ok inc1 =>
      match rangeCheck ed (fun v => !dateLtB v d) with
      | .error e => .error e
      | .ok inc2 => .ok (inc1 && inc2)

/-- The de-duplication + date-range filter loop of `get_news_about`
(news_fetcher3.py:1984-2009), threading `seen_urls` and `unique_articles`. -/
def dedupFilterLoop (sd ed : Option Str) :
    List Article → List Str → List Article → Except Unit (List Article)
  | [], _, acc => .ok acc
  | a :: rest, seen, acc =>
    if a.url ∈ seen then dedupFilterLoop sd ed rest seen acc
    else
      match passesRange sd ed (parse_article_date a.publish_date) with
      | .error e => .error e
      | .ok true => dedupFilterLoop sd ed rest (a.url :: seen) (acc ++ [a])
      | .ok false => dedupFilterLoop sd ed rest (a.url :: seen) acc

/-- The sort key lambda of news_fetcher3.py:2013-2018: `datetime.min` for a
falsy `publish_date`, otherwise `strptime` which RAISES on a non-`%Y-%m-%d`
string. -/
def sortKey (a : Article) : Except Unit Date :=
  if a.publish_date ≠ [] then
    match parse_ymd (splitT a.publish_date) with
    | some d => .ok d
    | none => .error ()
  else .ok (1, 1, 1)

/-- Key computation for every list element in order; the first raising key
aborts (as a raising `key=` lambda aborts `list.sort`). -/
def keyArticles : List Article → Except Unit (List (Date × Article))
  | [] => .ok []
  | a :: rest =>
    match sortKey a with
    | .error e => .error e
    | .ok k =>
      match keyArticles rest with
      | .error e => .error e
      | .ok ks => .ok ((k, a) :: ks)

/-- Model of `unique_articles.sort(key=..., reverse=True)`: compute every key
(any failure aborts the sort, as in CPython) and sort descending. -/
def sortArticles (l : List Article) : Except Unit (List Article) :=
  match keyArticles l with
  | .error e => .error e
  | .ok keyed =>
    .ok ((keyed.mergeSort (fun x y => dateLeB y.1 x.1)).map (fun p => p.2))

/-- The aggregation core of `get_news_about`: everything it does to the
assembled `all_articles` list (dedup + range filter, then the descending
sort). -/
def get_news_about_core (sd ed : Option Str) (all_articles : List Article) :
    Except Unit (List Article) := do
  let u ← dedupFilterLoop sd ed all_articles [] []
  sortArticles u

/-- External inputs of one `get_news_about` call: the collaborators used by
`search_rss_feeds`, plus the NewsAPI articles after the dict conversion of
news_fetcher3.py:1971-1979 (`none` when the import or fetch raised and the
`except` skipped the source). -/
structure NewsEnv where
  searchEnv : Env
  feeds : List Feed
  api : Option (List Article)

/-- Model of `get_news_about` (news_fetcher3.py:1931-2030).  Returns the list
and the cache afterwards; `.error` is an uncaught `ValueError` escaping from
the sort (or from a malformed `start_date`/`end_date` while filtering). -/
def get_news_about (nenv : NewsEnv) (cache : CacheFS) (query : Str) (maxA : Nat)
    (sd ed : Option Str) (now : Nat) : Except Unit (List Article × CacheFS) :=
  let date_range := (sd.getD []) ++ ['_'] ++ (ed.getD [])
  let key := get_cache_key (query ++ ['_'] ++ date_range) (str "news_about")
  let hit : Option (List Article) :=
    match load_from_cache cache key now with
    | some l => if l = [] then none else some l
    | none => none
  match hit with
  | some l => .ok (l.take maxA, cache)
  | none =>
    let rss := search_rss_feeds nenv.searchEnv nenv.feeds cache query maxA now
    let all := rss.articles ++ (nenv.api.getD [])
    match get_news_about_core sd ed all with
    | .error e => .error e
    | .ok sorted =>
      let cache2 := if sorted ≠ [] then save_to_cache rss.cache key sorted now
        else rss.cache
      .ok ((sorted.take maxA).take maxA, cache2)

/-! Content extractor (`extract_article_content`, news_fetcher3.py:1406-1700,
and `_extract_publish_date`, news_fetcher3.py:1296).  `extract_article_content`
is a TOP-LEVEL function, yet line 1592 executes `self._clean_article(article)`
(and line 1627 `self._extract_publish_date(soup, result)`): the name `self` is
unbound at module scope, so reaching that statement raises `NameError`, which
the enclosing blanket `except Exception` turns into `return None`.  The fetched
page is abstracted to the two facts consulted before that point. -/

/-- Page state after a successful `session.get` + BeautifulSoup parse:
whether the content-type contains `text/html`, and whether any article node was
found (selectors, density scan, or the `soup.body` fallback). -/
structure Page where
  contentTypeHtml : Bool
  hasArticleNode : Bool

/-- Model of `extract_article_content`.  `fetch url = none` is a network or
parse exception (→ `except` → `None`); any later path dies at the unbound
`self` and also returns `None`. -/
def extract_article_content (fetch : Str → Option Page) (url : Str) :
    Option Article :=
  match fetch url with
  | none => none
  | some p =>
    if ¬ p.contentTypeHtml then none
    else if ¬ p.hasArticleNode then none
    else none

/-- Model of `_extract_publish_date` (news_fetcher3.py:1296).  `parseIso`
abstracts `datetime.fromisoformat` over the stripped meta contents (the first
seven selectors), `parseFmt` the ten-format `strptime` cascade over visible
date-element texts.  `cur` is the entry at key `'publish_date'` of the result
dict: `none` = key absent, `some v` = key present with value `v` (possibly the
Python `None`, i.e. `some none`).  The final fallback fires only when the KEY
is absent — at the only call site the dict is initialised with
`'publish_date': None`, so the key is present and the fallback is dead. -/
def extract_publish_date (parseIso parseFmt : Str → Option Nat)
    (metaContents elemTexts : List Str) (now : Nat) (cur : Option (Option Nat)) :
    Option (Option Nat) :=
  match metaContents.findSome? (fun s => parseIso (pyStrip s)) with
  | some d => some (some d)
  | none =>
    match elemTexts.findSome? (fun s => parseFmt (pyStrip s)) with
    | some d => some (some d)
    | none =>
      match cur with
      | none => some (some now)
      | some v => some v

/-! Predicates and concrete inputs used by the statements below. -/

/-- No two records of the list carry the same `url` value. -/
def nodupUrls (l : List Article) : Prop := (l.map (fun a => a.url)).Nodup

/-- Every payload stored in the cache directory is url-deduplicated (the shape
in which `search_rss_feeds` and `get_news_about` write payloads). -/
def cacheWF (c : CacheFS) : Prop := ∀ k f, c k = some f → nodupUrls f.payload

/-- A well-formed optional range bound: absent, empty, or `%Y-%m-%d`-parseable
(the format `get_news_about` documents for `start_date`/`end_date`). -/
def rangeOk (o : Option Str) : Prop :=
  ∀ s, o = some s → s ≠ [] → (parse_ymd s).isSome = true

/-- The publish date either is empty (falsy) or parses, i.e. the sort key
lambda of `get_news_about` does not raise on this record. -/
def goodDate (a : Article) : Prop :=
  a.publish_date = [] ∨ (parse_ymd (splitT a.publish_date)).isSome = true

instance (a : Article) : Decidable (goodDate a) := by
  unfold goodDate
  infer_instance

/-- The date the sort key resolves for a record with a `goodDate`:
`datetime.min` for a falsy `publish_date`. -/
def resolvedKey (a : Article) : Date :=
  if a.publish_date = [] then (1, 1, 1)
  else (parse_ymd (splitT a.publish_date)).getD (1, 1, 1)

/-- The record `a` is the first record in `l` carrying its `url`. -/
def firstOcc (a : Article) (l : List Article) : Prop :=
  ∃ l₁ l₂, l = l₁ ++ a :: l₂ ∧ a.url ∉ l₁.map (fun b => b.url)

/-- Boolean success test of an `Except Unit` computation. -/
def isOkE {α : Type} : Except Unit α → Bool
  | .ok _ => true
  | .error _ => false

/-- Trivial collaborator bundle: identity `unquote`, failing fetches. -/
def trivEnv : Env := ⟨id, fun _ => none, fun _ => none⟩

/-- Empty cache directory. -/
def emptyFS : CacheFS := fun _ => none

/-- A record whose `publish_date` is a non-empty string in a non-`%Y-%m-%d`
format (the shape the RSS fallback date fields produce). -/
def badDateArt : Article :=
  { title := str "t", url := str "http://a.com/p"
    publish_date := str "Tue, 12 Mar 2024 10:00:00 GMT"
    content := str "c", source := str "s", author := none, image_url := none }

/-- A record with a parseable date. -/
def okDateArt : Article :=
  { title := str "t2", url := str "http://a.com/q"
    publish_date := str "2024-03-05T10:00:00"
    content := str "c2", source := str "s", author := none, image_url := none }

/-- A record with an empty (falsy) date. -/
def emptyDateArt : Article :=
  { title := str "t3", url := str "http://a.com/r"
    publish_date := []
    content := str "c3", source := str "s", author := none, image_url := none }

/-! Theorems.  Each claim theorem is marked with its claim id. -/

theorem startsWith_le (s p : Str) (h : startsWith s p = true) :
    p.length ≤ s.length := by
  induction s generalizing p with
  | nil =>
    cases p with
    | nil => simp
    | cons d ds => simp [startsWith] at h
  | cons c cs ih =>
    cases p with
    | nil => simp
    | cons d ds =>
      simp only [startsWith, Bool.and_eq_true] at h
      simp only [List.length_cons, Nat.add_le_add_iff_right]
      exact ih ds h.2

theorem findSome?_const_none {α β : Type} (l : List α) :
    l.findSome? (fun _ => (none : Option β)) = none := by
  induction l with
  | nil => rfl
  | cons a l ih => simp [List.findSome?, ih]

/-- Example regression checks for the md5 model against known digests. -/
example : md5Hex (utf8Encode (str "abc")) = str "900150983cd24fb0d6963f7d28e17f72" := by
  decide

example : md5Hex (utf8Encode (str "")) = str "d41d8cd98f00b204e9800998ecf8427e" := by
  decide

/-- C2: `save_to_cache` then `load_from_cache` within 24 hours of the write
returns the stored payload, and an entry whose file mtime is more than 24 hours
before `now` loads as `None` even though the file is still present. -/
theorem cache_roundtrip_and_ttl_expiry :
    (∀ (fs : CacheFS) (key : Str) (data : List Article) (t tq : Nat),
        tq - t ≤ CACHE_TTL →
        load_from_cache (save_to_cache fs key data t) key tq = some data) ∧
    (∀ (fs : CacheFS) (key : Str) (f : CacheFile) (t : Nat),
        fs key = some f → t - f.mtime > CACHE_TTL →
        load_from_cache fs key t = none) := by
  constructor
  · intro fs key data t tq h
    have hk : save_to_cache fs key data t key = some ⟨data, t⟩ := by
      simp [save_to_cache]
    simp only [load_from_cache, hk]
    rw [if_neg (by omega)]
  · intro fs key f t hf h
    simp only [load_from_cache, hf]
    rw [if_pos h]

/-- Witness for C2 at concrete inputs (write at 100, read at 200; write at 0,
read at `CACHE_TTL + 1`). -/
theorem cache_roundtrip_and_ttl_expiry_witness :
    load_from_cache (save_to_cache emptyFS (str "k") [okDateArt] 100) (str "k") 200 =
      some [okDateArt] ∧
    load_from_cache (save_to_cache emptyFS (str "k") [okDateArt] 0) (str "k")
      (CACHE_TTL + 1) = none :=
  ⟨cache_roundtrip_and_ttl_expiry.1 emptyFS (str "k") [okDateArt] 100 200 (by decide),
   cache_roundtrip_and_ttl_expiry.2 (save_to_cache emptyFS (str "k") [okDateArt] 0)
     (str "k") ⟨[okDateArt], 0⟩ (CACHE_TTL + 1) (by decide) (by decide)⟩

/-- C3 counterexample: the pattern compiled for "Jane Doe" does NOT match
"Doe, Jane" — the reversed-order variant is the literal "doe jane" with no
comma, and "doe, jane" does not contain it. -/
theorem name_pattern_doe_comma_jane_counterexample :
    ((create_name_pattern (str "Jane Doe")).1.map
      (fun p => pattern_search p (str "Doe, Jane"))) = some false := by
  decide

/-- C3 (amended): the "Jane Doe" pattern matches "Jane D.", "J. Doe" and the
comma-free reversal "Doe Jane" case-insensitively, and matches neither
"Jane Doering" (word boundary) nor the comma-separated "Doe, Jane". -/
theorem name_pattern_jane_doe_matching :
    ((create_name_pattern (str "Jane Doe")).1.map
      (fun p => pattern_search p (str "Jane D."))) = some true ∧
    ((create_name_pattern (str "Jane Doe")).1.map
      (fun p => pattern_search p (str "J. Doe"))) = some true ∧
    ((create_name_pattern (str "Jane Doe")).1.map
      (fun p => pattern_search p (str "JANE D. spoke"))) = some true ∧
    ((create_name_pattern (str "Jane Doe")).1.map
      (fun p => pattern_search p (str "Doe Jane"))) = some true ∧
    ((create_name_pattern (str "Jane Doe")).1.map
      (fun p => pattern_search p (str "Jane Doering"))) = some false ∧
    ((create_name_pattern (str "Jane Doe")).1.map
      (fun p => pattern_search p (str "Doe, Jane"))) = some false := by
  decide

/-- C5 counterexample: on a `urljoin` failure `make_absolute_url` returns the
(stripped) input string, not `None` (the `except` branch is
`return image_url`); and on a protocol-relative candidate with a
bracket-malformed base the bare `urlparse(base_url)` raises `ValueError`
which propagates to the caller instead of yielding `None`. -/
theorem make_absolute_url_join_failure_counterexample :
    make_absolute_url (fun _ _ => none) (str "a b") (str "http://x.com/y") =
      .ok (some (str "a b")) ∧
    make_absolute_url (fun _ _ => none) (str "//cdn.example.com/a.jpg")
      (str "http://[") = .error () := by
  exact ⟨rfl, rfl⟩

/-- C5 (amended): `make_absolute_url` returns `None` only for falsy input; for
non-empty input it never returns `None` — on a join failure it returns the
echoed (stripped) input, and on a bracket-malformed base in the
protocol-relative/root-relative branches it propagates the `urlparse`
`ValueError` (so with a well-formed base it always returns some string).
`make_absolute_url_robust`, whose whole body is inside the `try`, never
raises: it returns `None` exactly on falsy input or base and a string
otherwise. -/
theorem make_absolute_url_none_only_on_empty
    (join : Str → Str → Option Str) (i b : Str) (hi : i ≠ []) (hb : b ≠ []) :
    make_absolute_url join [] b = .ok none ∧
    make_absolute_url join i b ≠ .ok none ∧
    (∀ p, urlparseE b = .ok p →
      ∃ s, make_absolute_url join i b = .ok (some s)) ∧
    (make_absolute_url_robust join i b).isSome = true ∧
    make_absolute_url_robust join i [] = none := by
  refine ⟨by simp [make_absolute_url], ?_, ?_, ?_, by simp [make_absolute_url_robust]⟩
  · simp only [make_absolute_url, if_neg hi]
    repeat' split
    all_goals simp
  · intro p hp
    simp only [make_absolute_url, if_neg hi, hp]
    repeat' split
    all_goals exact ⟨_, rfl⟩
  · simp only [make_absolute_url_robust]
    rw [if_neg (by simp [hi, hb])]
    repeat' split
    all_goals simp

/-- Witness for C5 at a concrete failing join and a well-formed base. -/
theorem make_absolute_url_none_only_on_empty_witness :
    make_absolute_url (fun _ _ => none) [] (str "http://x.com/y") = .ok none ∧
    make_absolute_url (fun _ _ => none) (str "a b") (str "http://x.com/y") ≠
      .ok none ∧
    (∃ s, make_absolute_url (fun _ _ => none) (str "a b") (str "http://x.com/y") =
      .ok (some s)) ∧
    (make_absolute_url_robust (fun _ _ => none) (str "a b")
      (str "http://x.com/y")).isSome = true ∧
    make_absolute_url_robust (fun _ _ => none) (str "a b") [] = none :=
  have h := make_absolute_url_none_only_on_empty (fun _ _ => none) (str "a b")
    (str "http://x.com/y") (by decide) (by decide)
  ⟨h.1, h.2.1,
   h.2.2.1 ⟨str "http", str "x.com", str "/y", []⟩ rfl,
   h.2.2.2.1, h.2.2.2.2⟩

/-- C6: `extract_article_content` returns `None` for EVERY url — even when the
fetch and parse succeed, line 1592 `self._clean_article(article)` raises
`NameError` (`self` is unbound in the top-level function) which the blanket
`except` converts to `None`; moreover the current-time fallback of
`_extract_publish_date` is dead at its call site because the result dict is
initialised with the key `'publish_date'` present (value `None`), so when no
meta tag or date element parses, the stored date stays `None` rather than
becoming the current timestamp. -/
theorem extract_article_content_always_none :
    (∀ (fetch : Str → Option Page) (url : Str),
        extract_article_content fetch url = none) ∧
    (∀ (metaContents elemTexts : List Str) (now : Nat),
        extract_publish_date (fun _ => none) (fun _ => none)
          metaContents elemTexts now (some none) = some none) := by
  constructor
  · intro fetch url
    unfold extract_article_content
    cases fetch url with
    | none => rfl
    | some p => by_cases h1 : p.contentTypeHtml <;> simp [h1]
  · intro metas elems now
    unfold extract_publish_date
    rw [findSome?_const_none, findSome?_const_none]

/-- C7 counterexample: "banner" is NOT in the skip list (`skip_patterns` has
`logo-small`, `icon-`, `ads/` ... but neither `banner` nor `avatar` nor bare
`logo`/`icon`/`ad`), so a URL containing "banner" with an image extension is
accepted. -/
theorem image_validator_banner_counterexample :
    validate_image_url_robust (str "https://example.com/banner.jpg") = true := by
  decide

/-- C7 (amended): any non-data-URI string containing one of the ACTUAL skip
substrings (`favicon`, `logo-small`, `icon-`, `sprite`, ...) is rejected, and
`data:image/` URIs are accepted outright; the keywords `banner`, `avatar`,
bare `logo`, `icon` and `ad` are not in the skip list. -/
theorem validate_image_url_skip_list (url p : Str)
    (hp : p ∈ skip_patterns)
    (hin : inStr p (lowerStr (pyStrip url)) = true)
    (hnd : startsWith (lowerStr (pyStrip url)) (str "data:image/") = false) :
    validate_image_url_robust url = false ∧
    ∀ u : Str, startsWith (lowerStr (pyStrip u)) (str "data:image/") = true →
      validate_image_url_robust u = true := by
  constructor
  · by_cases h0 : url = []
    · simp [validate_image_url_robust, h0]
    · have hany : skip_patterns.any (fun q => inStr q (lowerStr (pyStrip url))) = true :=
        List.any_eq_true.mpr ⟨p, hp, hin⟩
      simp only [validate_image_url_robust, if_neg h0, hnd, hany]
      split
      · rfl
      · simp
  · intro u hu
    have hlen : (str "data:image/").length ≤ (lowerStr (pyStrip u)).length :=
      startsWith_le _ _ hu
    have hlen' : 11 ≤ (pyStrip u).length := by
      simpa [lowerStr] using hlen
    have hne : u ≠ [] := by
      intro h
      rw [h] at hu
      simp [pyStrip, stripWhile, lowerStr, startsWith, str] at hu
    simp only [validate_image_url_robust, if_neg hne, hu]
    split
    · next hcond =>
      exfalso
      simp only [Bool.or_eq_true, decide_eq_true_eq] at hcond
      rcases hcond with h | h
      · rw [h] at hlen'
        simp at hlen'
      · omega
    · simp

/-- Witness for C7: a "favicon" URL is rejected, a data URI is accepted. -/
theorem validate_image_url_skip_list_witness :
    validate_image_url_robust (str "https://x.com/favicon.png") = false ∧
    validate_image_url_robust (str "data:image/png;base64,AA") = true :=
  ⟨(validate_image_url_skip_list (str "https://x.com/favicon.png") (str "favicon")
      (by decide) (by decide) (by decide)).1,
   (validate_image_url_skip_list (str "https://x.com/favicon.png") (str "favicon")
      (by decide) (by decide) (by decide)).2 (str "data:image/png;base64,AA")
      (by decide)⟩

/-- C8 counterexample: the cache key `search_rss_feeds` computes for
"Jane Doe" differs from the one for "jane doe" — the composite string
`f"rss_search_{query}"` is hashed without lowercasing. -/
theorem rss_cache_key_not_case_insensitive :
    rss_cache_key (str "Jane Doe") ≠ rss_cache_key (str "jane doe") := by
  decide

/-- C8 (amended): `get_cache_key` lowercases the query before hashing, so
queries equal up to case give equal keys there; but the key used by
`search_rss_feeds` hashes the raw query, and "Jane Doe"/"jane doe" receive
different keys. -/
theorem cache_key_case_insensitivity (q1 q2 scope : Str)
    (h : lowerStr q1 = lowerStr q2) :
    get_cache_key q1 scope = get_cache_key q2 scope ∧
    rss_cache_key (str "Jane Doe") ≠ rss_cache_key (str "jane doe") := by
  refine ⟨?_, by decide⟩
  simp only [get_cache_key, h]

theorem buildEntryData_url (env : Env) (feed : Feed) (e : Entry) (url : Str) :
    (buildEntryData env feed e url).url = url := rfl

theorem processEntries_inv (env : Env) (pat : List Str) (feed : Feed) (maxA : Nat)
    (es : List Entry) :
    ∀ (arts : List Article) (proc : List Str),
      nodupUrls arts → (∀ a ∈ arts, a.url ∈ proc) →
      nodupUrls (processEntries env pat feed maxA es arts proc).1 ∧
      (∀ a ∈ (processEntries env pat feed maxA es arts proc).1,
        a.url ∈ (processEntries env pat feed maxA es arts proc).2) := by
  induction es with
  | nil =>
    intro arts proc h1 h2
    exact ⟨h1, h2⟩
  | cons e rest ih =>
    intro arts proc h1 h2
    simp only [processEntries]
    split
    · exact ⟨h1, h2⟩
    · split
      · exact ih arts proc h1 h2
      · split
        · exact ih arts proc h1 h2
        · next hskip _ =>
          apply ih
          · have hnotin : (clean_url env (e.link.getD [])) ∉ arts.map (fun a => a.url) := by
              intro hmem
              rcases List.mem_map.mp hmem with ⟨a, ha, hau⟩
              exact hskip (Or.inr (hau ▸ h2 a ha))
            unfold nodupUrls
            rw [List.map_append, List.nodup_append]
            refine ⟨h1, by simp, ?_⟩
            intro x hx hx2
            simp only [List.map_cons, List.map_nil, buildEntryData_url,
              List.mem_singleton] at hx2
            rw [hx2] at hx
            exact hnotin hx
          · intro a ha
            rcases List.mem_append.mp ha with h | h
            · exact List.mem_cons_of_mem _ (h2 a h)
            · simp only [List.mem_singleton] at h
              rw [h, buildEntryData_url]
              exact List.mem_cons_self _ _

theorem processFeeds_inv (env : Env) (pat : List Str) (maxA : Nat)
    (feeds : List Feed) :
    ∀ (arts : List Article) (proc : List Str),
      nodupUrls arts → (∀ a ∈ arts, a.url ∈ proc) →
      nodupUrls (processFeeds env pat maxA feeds arts proc) := by
  induction feeds with
  | nil => intro arts proc h1 _; exact h1
  | cons f rest ih =>
    intro arts proc h1 h2
    simp only [processFeeds]
    split
    · exact h1
    · split
      · exact ih arts proc h1 h2
      · have h := processEntries_inv env pat f maxA (f.entries.take 20) arts proc h1 h2
        exact ih _ _ h.1 h.2

theorem load_from_cache_wf (fs : CacheFS) (key : Str) (now : Nat)
    (l : List Article) (hwf : cacheWF fs)
    (h : load_from_cache fs key now = some l) : nodupUrls l := by
  unfold load_from_cache at h
  split at h
  · cases h
  · next f hk =>
    split at h
    · cases h
    · injection h with h2
      rw [← h2]
      exact hwf key f hk

theorem rssHit_load (cache : CacheFS) (key : Str) (now : Nat) (l : List Article)
    (h : rssHit cache key now = some l) :
    load_from_cache cache key now = some l := by
  unfold rssHit at h
  split at h
  · next l2 hl =>
    split at h
    · cases h
    · injection h with h2
      rw [← h2]
      exact hl
  · cases h

theorem nodupUrls_take (l : List Article) (n : Nat) (h : nodupUrls l) :
    nodupUrls (l.take n) := by
  unfold nodupUrls at *
  rw [List.map_take]
  exact ((List.map (fun a => a.url) l).take_sublist n).nodup h

theorem save_to_cache_wf (fs : CacheFS) (key : Str) (data : List Article)
    (now : Nat) (hwf : cacheWF fs) (hd : nodupUrls data) :
    cacheWF (save_to_cache fs key data now) := by
  intro k f h
  unfold save_to_cache at h
  split at h
  · cases h; exact hd
  · exact hwf k f h

/-- C1: for every query and bound, `search_rss_feeds` returns a list with no
two records sharing a `url` — on the fresh path every append is guarded by the
`processed_urls` check, and on the cached path the payload was written by a
prior deduplicated batch (the `cacheWF` invariant, which the function itself
preserves). -/
theorem search_rss_feeds_dedup (env : Env) (feeds : List Feed) (cache : CacheFS)
    (query : Str) (maxA now : Nat) (hwf : cacheWF cache) :
    nodupUrls (search_rss_feeds env feeds cache query maxA now).articles ∧
    cacheWF (search_rss_feeds env feeds cache query maxA now).cache := by
  unfold search_rss_feeds
  cases hp : (create_name_pattern query).1 with
  | none => exact ⟨List.nodup_nil, hwf⟩
  | some pat =>
    cases hh : rssHit cache (rss_cache_key query) now with
    | some l =>
      simp only []
      exact ⟨nodupUrls_take l maxA
        (load_from_cache_wf cache _ now l hwf (rssHit_load _ _ _ _ hh)), hwf⟩
    | none =>
      simp only []
      have hfresh := processFeeds_inv env pat maxA feeds [] []
        List.nodup_nil (by intro a ha; cases ha)
      refine ⟨hfresh, ?_⟩
      split
      · exact save_to_cache_wf _ _ _ _ hwf hfresh
      · exact hwf

/-- Witness for C1 on a concrete empty deployment. -/
theorem search_rss_feeds_dedup_witness :
    nodupUrls (search_rss_feeds trivEnv [] emptyFS (str "jane doe") 5 0).articles ∧
    cacheWF (search_rss_feeds trivEnv [] emptyFS (str "jane doe") 5 0).cache :=
  search_rss_feeds_dedup trivEnv [] emptyFS (str "jane doe") 5 0
    (by intro k f h; simp [emptyFS] at h)

theorem rssHit_none_mono (cache : CacheFS) (key : Str) (now nq : Nat)
    (hm : now ≤ nq) (h : rssHit cache key now = none) :
    rssHit cache key nq = none := by
  unfold rssHit load_from_cache at h ⊢
  cases hk : cache key with
  | none => simp only [hk]
  | some f =>
    simp only [hk] at h ⊢
    by_cases ht : CACHE_TTL < now - f.mtime
    · have ht2 : CACHE_TTL < nq - f.mtime := by omega
      simp only [if_pos ht2]
    · simp only [if_neg ht] at h
      by_cases hp : f.payload = []
      · by_cases ht2 : CACHE_TTL < nq - f.mtime
        · simp only [if_pos ht2]
        · simp only [if_neg ht2, if_pos hp]
      · rw [if_neg hp] at h
        cases h

/-- C10: when a search returns zero articles the cache is left untouched
(`if articles:` guards the write), so a repeated identical search that polled
and came up empty polls the feeds again instead of hitting the cache. -/
theorem search_rss_feeds_empty_and_repoll (env : Env) (feeds : List Feed)
    (cache : CacheFS) (query : Str) (maxA now nq : Nat)
    (hres : (search_rss_feeds env feeds cache query maxA now).articles = [])
    (hmono : now ≤ nq) :
    (search_rss_feeds env feeds cache query maxA now).cache = cache ∧
    ((search_rss_feeds env feeds cache query maxA now).polled = true →
      (search_rss_feeds env feeds
          (search_rss_feeds env feeds cache query maxA now).cache
          query maxA nq).polled = true) := by
  cases hp : (create_name_pattern query).1 with
  | none =>
    simp only [search_rss_feeds, hp]
    exact ⟨trivial, fun h => by simp at h⟩
  | some pat =>
    cases hh : rssHit cache (rss_cache_key query) now with
    | some l =>
      simp only [search_rss_feeds, hp, hh]
      exact ⟨trivial, fun h => by simp at h⟩
    | none =>
      simp only [search_rss_feeds, hp, hh] at hres ⊢
      have hc : (if processFeeds env pat maxA feeds [] [] ≠ [] then
          save_to_cache cache (rss_cache_key query)
            (processFeeds env pat maxA feeds [] []) now
        else cache) = cache := by
        rw [if_neg (by simp [hres])]
      refine ⟨hc, ?_⟩
      intro _
      rw [hc]
      have hh2 := rssHit_none_mono cache (rss_cache_key query) now nq hmono hh
      simp only [search_rss_feeds, hp, hh2]

/-- Witness for C10: an empty deployment search at time 0 repeated at time 7. -/
theorem search_rss_feeds_empty_and_repoll_witness :
    (search_rss_feeds trivEnv [] emptyFS (str "x") 5 0).cache = emptyFS ∧
    ((search_rss_feeds trivEnv [] emptyFS (str "x") 5 0).polled = true →
      (search_rss_feeds trivEnv []
          (search_rss_feeds trivEnv [] emptyFS (str "x") 5 0).cache
          (str "x") 5 7).polled = true) :=
  search_rss_feeds_empty_and_repoll trivEnv [] emptyFS (str "x") 5 0 7
    (by decide) (by decide)

theorem sortKey_good (a : Article) (h : goodDate a) :
    sortKey a = .ok (resolvedKey a) := by
  unfold sortKey resolvedKey
  by_cases hp : a.publish_date = []
  · simp [hp]
  · rcases h with h | h
    · exact absurd h hp
    · obtain ⟨d, hd⟩ := Option.isSome_iff_exists.mp h
      simp [hp, hd]

theorem keyArticles_good (u : List Article) (h : ∀ a ∈ u, goodDate a) :
    keyArticles u = .ok (u.map (fun a => (resolvedKey a, a))) := by
  induction u with
  | nil => rfl
  | cons a rest ih =>
    have ha := sortKey_good a (h a (List.mem_cons_self a rest))
    have hr := ih (fun b hb => h b (List.mem_cons_of_mem a hb))
    simp only [keyArticles, ha, hr, List.map_cons]

theorem dateLeB_trans (a b c : Date) (h1 : dateLeB a b = true)
    (h2 : dateLeB b c = true) : dateLeB a c = true := by
  simp only [dateLeB, decide_eq_true_eq] at *
  omega

theorem dateLeB_total (a b : Date) : (dateLeB a b || dateLeB b a) = true := by
  simp only [dateLeB, Bool.or_eq_true, decide_eq_true_eq]
  omega

theorem sortArticles_good (u : List Article) (h : ∀ a ∈ u, goodDate a) :
    ∃ r, sortArticles u = .ok r ∧ r.Perm u ∧
      r.Pairwise (fun a b => dateLeB (resolvedKey b) (resolvedKey a) = true) := by
  have hk := keyArticles_good u h
  refine ⟨((u.map (fun a => (resolvedKey a, a))).mergeSort
      (fun x y => dateLeB y.1 x.1)).map (fun p => p.2), ?_, ?_, ?_⟩
  · simp only [sortArticles, hk]
  · have hperm := List.mergeSort_perm (u.map (fun a => (resolvedKey a, a)))
      (fun x y => dateLeB y.1 x.1)
    have h2 := hperm.map (fun p : Date × Article => p.2)
    have h3 : (u.map (fun a => (resolvedKey a, a))).map (fun p : Date × Article => p.2) = u := by
      simp [List.map_map, Function.comp_def]
    rw [h3] at h2
    exact h2
  · have hsorted := @List.sorted_mergeSort (Date × Article)
      (fun x y => dateLeB y.1 x.1)
      (fun x y z hxy hyz => dateLeB_trans z.1 y.1 x.1 hyz hxy)
      (fun x y => dateLeB_total y.1 x.1)
      (u.map (fun a => (resolvedKey a, a)))
    rw [List.pairwise_map]
    refine hsorted.imp_of_mem ?_
    intro x y hx hy hr
    have hsub := (List.mergeSort_perm (u.map (fun a => (resolvedKey a, a)))
      (fun x y => dateLeB y.1 x.1)).subset
    have hx2 := hsub hx
    have hy2 := hsub hy
    rcases List.mem_map.mp hx2 with ⟨ax, _, hax⟩
    rcases List.mem_map.mp hy2 with ⟨ay, _, hay⟩
    rw [← hax, ← hay]
    simpa [← hax, ← hay] using hr

theorem rangeCheck_ok (o : Option Str) (ho : rangeOk o) (k : Date → Bool) :
    ∃ b, rangeCheck o k = .ok b := by
  unfold rangeCheck
  cases o with
  | none => exact ⟨true, rfl⟩
  | some s =>
    by_cases hne : s = []
    · exact ⟨true, by simp [hne]⟩
    · obtain ⟨v, hv⟩ := Option.isSome_iff_exists.mp (ho s rfl hne)
      exact ⟨k v, by simp [hne, hv]⟩

theorem passesRange_ok (sd ed : Option Str) (hs : rangeOk sd) (he : rangeOk ed)
    (ad : Option Date) : ∃ b, passesRange sd ed ad = .ok b := by
  unfold passesRange
  cases ad with
  | none => exact ⟨true, rfl⟩
  | some d =>
    obtain ⟨b1, h1⟩ := rangeCheck_ok sd hs (fun v => !dateLtB d v)
    obtain ⟨b2, h2⟩ := rangeCheck_ok ed he (fun v => !dateLtB v d)
    exact ⟨b1 && b2, by simp [h1, h2]⟩

theorem dedupFilterLoop_ok (sd ed : Option Str) (hs : rangeOk sd)
    (he : rangeOk ed) (l : List Article) :
    ∀ (seen : List Str) (acc : List Article),
      ∃ rest, dedupFilterLoop sd ed l seen acc = .ok (acc ++ rest) ∧
        ∀ x ∈ rest, x ∈ l := by
  induction l with
  | nil => intro seen acc; exact ⟨[], by simp [dedupFilterLoop], by simp⟩
  | cons a rest ih =>
    intro seen acc
    simp only [dedupFilterLoop]
    by_cases hseen : a.url ∈ seen
    · rw [if_pos hseen]
      obtain ⟨r, hr, hr2⟩ := ih seen acc
      exact ⟨r, hr, fun x hx => List.mem_cons_of_mem a (hr2 x hx)⟩
    · rw [if_neg hseen]
      obtain ⟨b, hb⟩ := passesRange_ok sd ed hs he (parse_article_date a.publish_date)
      rw [hb]
      cases b with
      | true =>
        obtain ⟨r, hr, hr2⟩ := ih (a.url :: seen) (acc ++ [a])
        refine ⟨a :: r, by rw [hr]; simp, ?_⟩
        intro x hx
        rcases List.mem_cons.mp hx with h | h
        · rw [h]; exact List.mem_cons_self a rest
        · exact List.mem_cons_of_mem a (hr2 x h)
      | false =>
        obtain ⟨r, hr, hr2⟩ := ih (a.url :: seen) acc
        exact ⟨r, hr, fun x hx => List.mem_cons_of_mem a (hr2 x hx)⟩

/-- C4 counterexample: an aggregated record whose `publish_date` is a
non-empty non-ISO string (here an RFC-822 RSS date, exactly what the
`updated`/`published` fallback fields supply) makes the sort key lambda raise
`ValueError`, so `get_news_about` raises instead of returning a list — such a
date is NOT mapped to the epoch-minimum. -/
theorem get_news_about_unparseable_date_raises :
    isOkE (get_news_about ⟨trivEnv, [], some [badDateArt]⟩ emptyFS (str "x") 50
      none none 0) = false := by
  decide

/-- C4 (amended): when every aggregated record's `publish_date` is EMPTY or
`%Y-%m-%d`-parseable (and the requested bounds are absent or well-formed),
`get_news_about` returns the deduplicated articles sorted in descending order
of resolved publish date, with empty dates resolved to `datetime.min`
(sorting last); a non-empty unparseable date instead raises out of the sort. -/
theorem get_news_about_core_sorted (sd ed : Option Str) (l : List Article)
    (hgood : ∀ a ∈ l, goodDate a) (hs : rangeOk sd) (he : rangeOk ed) :
    ∃ u r, dedupFilterLoop sd ed l [] [] = .ok u ∧
      get_news_about_core sd ed l = .ok r ∧ r.Perm u ∧
      r.Pairwise (fun a b => dateLeB (resolvedKey b) (resolvedKey a) = true) := by
  obtain ⟨rest, hloop, hsub⟩ := dedupFilterLoop_ok sd ed hs he l [] []
  rw [List.nil_append] at hloop
  obtain ⟨r, hsort, hperm, hpair⟩ :=
    sortArticles_good rest (fun a ha => hgood a (hsub a ha))
  refine ⟨rest, r, hloop, ?_, hperm, hpair⟩
  simp only [get_news_about_core, hloop]
  exact hsort

/-- Witness for C4 on a two-record list (one parseable date, one empty). -/
theorem get_news_about_core_sorted_witness :
    ∃ u r, dedupFilterLoop none none [okDateArt, emptyDateArt] [] [] = .ok u ∧
      get_news_about_core none none [okDateArt, emptyDateArt] = .ok r ∧
      r.Perm u ∧
      r.Pairwise (fun a b => dateLeB (resolvedKey b) (resolvedKey a) = true) :=
  get_news_about_core_sorted none none [okDateArt, emptyDateArt]
    (by decide) (fun s h => nomatch h) (fun s h => nomatch h)

theorem dedupFilter_first_unparseable_aux (sd ed : Option Str)
    (hs : rangeOk sd) (he : rangeOk ed) (l₂ : List Article) (a : Article)
    (hd : parse_article_date a.publish_date = none) (l₁ : List Article) :
    ∀ (seen : List Str) (acc : List Article),
      a.url ∉ seen → a.url ∉ l₁.map (fun b => b.url) →
      ∃ u, dedupFilterLoop sd ed (l₁ ++ a :: l₂) seen acc = .ok u ∧ a ∈ u := by
  induction l₁ with
  | nil =>
    intro seen acc hseen _
    simp only [List.nil_append, dedupFilterLoop, if_neg hseen, hd]
    obtain ⟨r, hr, _⟩ := dedupFilterLoop_ok sd ed hs he l₂ (a.url :: seen) (acc ++ [a])
    refine ⟨(acc ++ [a]) ++ r, ?_, by simp⟩
    have : passesRange sd ed none = .ok true := rfl
    rw [this]
    exact hr
  | cons b l₁ ih =>
    intro seen acc hseen hl1
    have hne : a.url ≠ b.url := by
      intro h
      exact hl1 (by simp [h])
    have hl1' : a.url ∉ l₁.map (fun x => x.url) := by
      intro h
      exact hl1 (by simp [h])
    simp only [List.cons_append, dedupFilterLoop]
    by_cases hb : b.url ∈ seen
    · rw [if_pos hb]
      exact ih seen acc hseen hl1'
    · rw [if_neg hb]
      obtain ⟨c, hc⟩ := passesRange_ok sd ed hs he (parse_article_date b.publish_date)
      rw [hc]
      cases c with
      | true =>
        exact ih (b.url :: seen) (acc ++ [b]) (by simp [hseen, hne]) hl1'
      | false =>
        exact ih (b.url :: seen) acc (by simp [hseen, hne]) hl1'

/-- C9: the start/end range filter of `get_news_about` only ever excludes a
record whose `publish_date` parses as `%Y-%m-%d` — a record with a missing or
unparseable date that reaches the filtering step (first occurrence of its URL)
is included in the filter's output regardless of the requested range. -/
theorem range_filter_includes_unparseable (sd ed : Option Str)
    (l : List Article) (a : Article) (hs : rangeOk sd) (he : rangeOk ed)
    (hf : firstOcc a l) (hd : parse_article_date a.publish_date = none) :
    ∃ u, dedupFilterLoop sd ed l [] [] = .ok u ∧ a ∈ u := by
  obtain ⟨l₁, l₂, rfl, hnot⟩ := hf
  exact dedupFilter_first_unparseable_aux sd ed hs he l₂ a hd l₁ [] []
    (by simp) hnot

/-- Witness for C9: the RFC-822-dated record survives a requested
2024-01-01..∞ range. -/
theorem range_filter_includes_unparseable_witness :
    ∃ u, dedupFilterLoop (some (str "2024-01-01")) none [badDateArt] [] [] =
      .ok u ∧ badDateArt ∈ u :=
  range_filter_includes_unparseable (some (str "2024-01-01")) none [badDateArt]
    badDateArt (by intro s h hne; cases h; decide) (fun s h => nomatch h)
    ⟨[], [], rfl, by simp⟩ (by decide)

/-- Witness for C8 with the case-variant pair ("NASA", "nasa"). -/
theorem cache_key_case_insensitivity_witness :
    get_cache_key (str "NASA") (str "news_about") =
      get_cache_key (str "nasa") (str "news_about") ∧
    rss_cache_key (str "Jane Doe") ≠ rss_cache_key (str "jane doe") :=
  cache_key_case_insensitivity (str "NASA") (str "nasa") (str "news_about")
    (by decide)

end Store
